import Mathlib

/-!
Verification of the PiThermalCam per-frame image pipeline.

This file shallowly embeds the numeric core of the repository:
  - `dead_pixels.py` : `fix_broken_pixels`, `_fix_dead_pixel_value`, `get_min_max`
  - `pi_therm_cam.py`: `_temps_to_rescaled_uints`, `change_colormap`, `change_interpolation`
  - `colorbar.py`    : `get_t_ticks`

Floating-point temperatures are modelled as exact rationals (`ℚ`), with an
explicit `FVal` type carrying the IEEE non-finite values (NaN, ±inf) where the
code can produce or consume them.  Machine integer casts are modelled with
explicit truncation and `% 2^8` reduction.  Mutable numpy arrays become pure
values: the in-place dead-pixel repair becomes an explicit left fold over the
list of dead-pixel coordinates computed from the original grid, exactly as
`np.argwhere` is evaluated once before the mutation loop.
-/

namespace PiThermalCam

/-- A double-precision value as the pipeline distinguishes them: NaN, ±infinity,
or a finite value (modelled exactly as a rational). -/
inductive FVal where
  | nan : FVal
  | posinf : FVal
  | neginf : FVal
  | fin : ℚ → FVal
deriving DecidableEq

/-- Largest finite double, `(2^53 - 1) * 2^971`; `np.nan_to_num` substitutes
±DBL_MAX for ±inf. -/
def DBL_MAX : ℚ := (2 ^ 53 - 1) * 2 ^ 971

/-- `np.nan_to_num` on one cell: NaN becomes 0, ±inf becomes ±DBL_MAX,
finite values pass through. -/
def nan_to_num : FVal → ℚ
  | .nan => 0
  | .posinf => DBL_MAX
  | .neginf => -DBL_MAX
  | .fin q => q

/-- IEEE division of finite doubles: division by zero yields NaN (0/0) or a
signed infinity, otherwise the exact quotient. -/
def fdiv (a b : ℚ) : FVal :=
  if b = 0 then
    if a = 0 then .nan else if 0 < a then .posinf else .neginf
  else .fin (a / b)

/-- Truncation toward zero, the C conversion of a double to an integer. -/
def truncToZero (q : ℚ) : ℤ :=
  if 0 ≤ q then ⌊q⌋ else ⌈q⌉

/-- `np.uint8` applied to a double: truncate toward zero and reduce `% 2^8`
(the observed numpy C-cast behaviour for magnitudes below `2^63`); NaN casts
to 0.  The cast of an infinity is platform-dependent and is never reached by
any theorem below; it is mapped to 0 here only to keep the function total. -/
def castUint8 : FVal → ℕ
  | .nan => 0
  | .posinf => 0
  | .neginf => 0
  | .fin q => (truncToZero q % (2 ^ 8 : ℤ)).toNat

/-- One cell of `_temps_to_rescaled_uints`:
`np.uint8((x - Tmin) * 255 / (Tmax - Tmin))` after `nan_to_num`. -/
def rescaleCell (Tmin Tmax : ℚ) (c : FVal) : ℕ :=
  castUint8 (fdiv ((nan_to_num c - Tmin) * 255) (Tmax - Tmin))

/-- `PiThermalCam._temps_to_rescaled_uints`: `nan_to_num`, scale every cell to
an 8-bit intensity, then reshape to 24×32 — the reshape (`norm.shape = (24, 32)`)
raises a `ValueError` unless the frame has exactly 768 cells. -/
def temps_to_rescaled_uints (f : List FVal) (Tmin Tmax : ℚ) : Except Unit (List ℕ) :=
  if f.length = 24 * 32 then
    Except.ok (f.map (rescaleCell Tmin Tmax))
  else
    Except.error ()

/-- The dead-pixel sentinel temperature, −273.15 °C, i.e. −5463/20, given in
normalized constructor form so that comparisons against it compute by kernel
reduction; `sentinel_eq` below restates it as the quotient −27315/100. -/
def sentinel : ℚ := ⟨-5463, 20, by decide, by decide⟩

/-- A grid of rational cell values indexed by (row, column). -/
def Grid : Type := ℕ → ℕ → ℚ

/-- Write one cell of a grid (one in-place numpy assignment). -/
def setCell (g : Grid) (i j : ℕ) (v : ℚ) : Grid :=
  fun a b => if a = i ∧ b = j then v else g a b

/-- All coordinates of a `rows × cols` grid in row-major order, the order in
which `np.argwhere` reports matches. -/
def rowMajorCells (rows cols : ℕ) : List (ℕ × ℕ) :=
  (List.range rows).flatMap (fun i => (List.range cols).map (fun j => (i, j)))

/-- `np.argwhere(image == -273.15)`: the row-major list of coordinates whose
cell holds the sentinel, evaluated on the grid as it is at that moment. -/
def deadPixels (rows cols : ℕ) (g : Grid) : List (ℕ × ℕ) :=
  (rowMajorCells rows cols).filter (fun p => g p.1 p.2 = sentinel)

/-- The coordinates of the numpy slice
`image[max(0, i-1) : min(rows, i+2), max(0, j-1) : min(cols, j+2)]`
(ℕ subtraction is exactly `max(0, i-1)`). -/
def neighborhood (rows cols i j : ℕ) : List (ℕ × ℕ) :=
  (List.range' (i - 1) (min rows (i + 2) - (i - 1))).flatMap
    (fun a => (List.range' (j - 1) (min cols (j + 2) - (j - 1))).map (fun b => (a, b)))

/-- `_fix_dead_pixel_value`: sum the clipped up-to-3×3 neighborhood (the faulty
cell included), divide by (neighborhood size − 1), and write the result back
into the cell. -/
def fix_dead_pixel_value (rows cols : ℕ) (g : Grid) (i j : ℕ) : Grid :=
  setCell g i j
    ((((neighborhood rows cols i j).map (fun p => g p.1 p.2)).sum) /
      (((neighborhood rows cols i j).length : ℚ) - 1))

/-- `fix_broken_pixels`: find every sentinel cell of the original grid, then
repair them one after another, each repair reading the grid as left by the
previous ones (the in-place mutation). -/
def fix_broken_pixels (rows cols : ℕ) (g : Grid) : Grid :=
  (deadPixels rows cols g).foldl (fun acc p => fix_dead_pixel_value rows cols acc p.1 p.2) g

/-- `np.min` of a list: no result on an empty list (numpy raises
`ValueError: zero-size array to reduction operation`). -/
def np_min : List ℚ → Option ℚ
  | [] => none
  | x :: xs => some (xs.foldl min x)

/-- `np.max` of a list, same empty-input behaviour as `np_min`. -/
def np_max : List ℚ → Option ℚ
  | [] => none
  | x :: xs => some (xs.foldl max x)

/-- `get_min_max(raw_image, exclude_dead_px)`: the minimum is taken over
`raw_image[np.where(raw_image > -50)]` when the flag is set, over the whole
frame otherwise; the maximum is always taken over the whole frame.  `none`
models the `ValueError` that `np.min` raises on an empty selection. -/
def get_min_max (f : List ℚ) (exclude_dead_px : Bool) : Option (ℚ × ℚ) :=
  let pool := if exclude_dead_px then f.filter (fun x => -50 < x) else f
  match np_min pool, np_max f with
  | some mn, some mx => some (mn, mx)
  | _, _ => none

/-- `len(self._colormap_list)` — nine colormaps. -/
def colormapCount : ℤ := 9

/-- `len(self._interpolation_list)` — seven interpolation modes. -/
def interpolationCount : ℤ := 7

/-- `change_colormap`: increment and wrap at 9, or decrement and wrap at −1.
The index is a Python `int`, hence `ℤ`. -/
def change_colormap (i : ℤ) (forward : Bool) : ℤ :=
  if forward then
    if i + 1 = colormapCount then 0 else i + 1
  else
    if i - 1 < 0 then colormapCount - 1 else i - 1

/-- `change_interpolation`: same pattern with the seven-element list. -/
def change_interpolation (i : ℤ) (forward : Bool) : ℤ :=
  if forward then
    if i + 1 = interpolationCount then 0 else i + 1
  else
    if i - 1 < 0 then interpolationCount - 1 else i - 1

/-- Python / numpy `%` on rationals with the sign of the divisor:
`a % b = a - b * ⌊a / b⌋`. -/
def pymod (a b : ℚ) : ℚ := a - b * ⌊a / b⌋

/-- `np.arange(start, stop, step)` for positive step: `⌈(stop-start)/step⌉`
values `start + k·step`. -/
def arange (start stop step : ℚ) : List ℚ :=
  (List.range (⌈(stop - start) / step⌉).toNat).map (fun k : ℕ => start + (k : ℚ) * step)

/-- `np.interp(x, [x0, x1], [f0, f1])`: clamp outside `[x0, x1]`, linear
interpolation inside. -/
def interp (x x0 x1 f0 f1 : ℚ) : ℚ :=
  if x ≤ x0 then f0
  else if x1 ≤ x then f1
  else f0 + (x - x0) * (f1 - f0) / (x1 - x0)

/-- `get_t_ticks(tmin, tmax, step, bounds)` with `bounds = [b0, b1]`:
tick temperatures `np.arange(tmin - tmin % step + step, tmax - tmax % step + step, step).astype(int)`
and their rows `np.interp(t_ticks, [tmin, tmax], bounds).astype(int)`. -/
def get_t_ticks (tmin tmax step b0 b1 : ℚ) : List ℤ × List ℤ :=
  let ticks := arange (tmin - pymod tmin step + step) (tmax - pymod tmax step + step) step
  (ticks.map truncToZero,
   (ticks.map truncToZero).map (fun t : ℤ => truncToZero (interp (t : ℚ) tmin tmax b0 b1)))

/-- The smallest multiple of `s` strictly greater than `x` (for `0 < s`);
spec-level description of where the tick sequence starts and stops. -/
def firstMultAbove (x : ℚ) (s : ℤ) : ℤ := s * (⌊x / (s : ℚ)⌋ + 1)

/-- Spec-worded rescaling with clamping: truncate toward zero, then clamp the
result into `[0, 255]`.  Stated from the spec sentence "values must be clamped
to [0,255] if truncation over/underflows"; used only to compare against the
code's `castUint8`. -/
def clampUint8Spec (q : ℚ) : ℕ := (max 0 (min 255 (truncToZero q))).toNat

/-- Spec-worded variant of `temps_to_rescaled_uints` whose out-of-range values
are clamped rather than wrapped; used only to refute the clamping claim. -/
def rescaleClampedSpec (f : List FVal) (Tmin Tmax : ℚ) : List ℕ :=
  f.map (fun c => clampUint8Spec ((nan_to_num c - Tmin) * 255 / (Tmax - Tmin)))

/-- View a flat 768-cell list of 8-bit intensities as a 24×32 grid of
rationals, row-major, the shape on which `fix_broken_pixels` runs in
`_pull_raw_image`. -/
def gridOfList (l : List ℕ) : Grid :=
  fun i j => ((l.getD (i * 32 + j) 0 : ℕ) : ℚ)

/-- A 24×32 grid with exactly one dead pixel, at the interior cell (5, 7). -/
def gOneDead : Grid := fun i j => if i = 5 ∧ j = 7 then sentinel else 1

/-- A 24×32 grid with two horizontally adjacent dead pixels at (0, 0) and
(0, 1), every other cell holding 1. -/
def gTwoDead : Grid := fun i j => if i = 0 ∧ (j = 0 ∨ j = 1) then sentinel else 1

/-- Row-major (lexicographic) order on coordinates. -/
def rmLt (p q : ℕ × ℕ) : Prop := p.1 < q.1 ∨ (p.1 = q.1 ∧ p.2 < q.2)

instance : DecidableRel rmLt := fun p q =>
  inferInstanceAs (Decidable (p.1 < q.1 ∨ (p.1 = q.1 ∧ p.2 < q.2)))

/-- Boolean row-major comparison, for kernel-computable order checks. -/
def rmLtb (p q : ℕ × ℕ) : Bool := p.1 < q.1 || (p.1 == q.1 && p.2 < q.2)

/-- Boolean check that a coordinate list is strictly increasing in row-major
order. -/
def chainRmLt : List (ℕ × ℕ) → Bool
  | [] => true
  | [_] => true
  | p :: q :: rest => rmLtb p q && chainRmLt (q :: rest)

instance : IsTrans (ℕ × ℕ) rmLt where
  trans := by
    intro a b c hab hbc
    rcases hab with h | ⟨h1, h2⟩ <;> rcases hbc with h3 | ⟨h4, h5⟩ <;>
      simp only [rmLt] <;> omega

/-! ### Helper lemmas -/

theorem sentinel_eq : sentinel = -27315 / 100 := by
  rw [show sentinel = (-5463 : ℤ) / (20 : ℕ) from ?_]
  · norm_num
  · rw [sentinel, Rat.mk'_eq_divInt, Rat.divInt_eq_div]
    norm_num

theorem fdiv_of_ne_zero (a b : ℚ) (hb : b ≠ 0) : fdiv a b = FVal.fin (a / b) := by
  rw [fdiv, if_neg hb]

theorem castUint8_fin (q : ℚ) :
    castUint8 (FVal.fin q) = (truncToZero q % (2 ^ 8 : ℤ)).toNat := rfl

theorem truncToZero_intCast (z : ℤ) : truncToZero (z : ℚ) = z := by
  rw [truncToZero]
  split
  · exact Int.floor_intCast z
  · exact Int.ceil_intCast z

theorem rescaleCell_self_eq_zero (t : ℚ) : rescaleCell t t (FVal.fin t) = 0 := by
  show castUint8 (fdiv ((t - t) * 255) (t - t)) = 0
  rw [sub_self, zero_mul]
  rw [show fdiv 0 0 = FVal.nan from by rw [fdiv, if_pos rfl, if_pos rfl]]
  rfl

/-- C1.  A flat 768-cell frame (every cell the same finite temperature, so the
derived range has `max == min`) rescales to the all-zero grid: the cell-wise
`0 * 255 / 0` is IEEE NaN, and the `np.uint8` cast sends NaN to 0, so no
division error is raised and the result is defined. -/
theorem C1_flat_frame_rescales_to_all_zeros (t : ℚ) (f : List FVal)
    (hall : ∀ c ∈ f, c = FVal.fin t) (hlen : f.length = 768) :
    temps_to_rescaled_uints f t t = Except.ok (List.replicate 768 0) := by
  unfold temps_to_rescaled_uints
  rw [if_pos (by omega)]
  refine congrArg Except.ok ?_
  refine List.eq_replicate_iff.2 ⟨by rw [List.length_map, hlen], ?_⟩
  intro b hb
  rcases List.mem_map.1 hb with ⟨c, hc, rfl⟩
  rw [hall c hc, rescaleCell_self_eq_zero]

/-- Witness for C1 at the concrete flat frame of 768 cells at 25 °C. -/
theorem C1_witness :
    temps_to_rescaled_uints (List.replicate 768 (FVal.fin 25)) 25 25
      = Except.ok (List.replicate 768 0) :=
  C1_flat_frame_rescales_to_all_zeros 25 _
    (fun _ hc => List.eq_of_mem_replicate hc) (by rw [List.length_replicate])

/-- Counterexample to C2 as stated.  On the 768-cell frame whose first cell is
−1 °C with range `min = 0, max = 255`, the intensity of the first cell is −1;
the code (`np.uint8`) wraps it to 255, whereas the claimed clamping semantics
would give 0 — so out-of-range intensities are wrapped, never clamped. -/
theorem C2_counterexample :
    temps_to_rescaled_uints (FVal.fin (-1) :: List.replicate 767 (FVal.fin 0)) 0 255
        = Except.ok (255 :: List.replicate 767 0) ∧
    rescaleClampedSpec (FVal.fin (-1) :: List.replicate 767 (FVal.fin 0)) 0 255
        = 0 :: List.replicate 767 0 ∧
    (255 :: List.replicate 767 0 : List ℕ) ≠ 0 :: List.replicate 767 0 := by
  refine ⟨?_, ?_, by decide⟩
  · unfold temps_to_rescaled_uints
    rw [if_pos (by rw [List.length_cons, List.length_replicate])]
    rw [List.map_cons, List.map_replicate]
    refine congrArg Except.ok ?_
    have h1 : rescaleCell 0 255 (FVal.fin (-1)) = 255 := by
      show castUint8 (fdiv (((-1 : ℚ) - 0) * 255) (255 - 0)) = 255
      rw [fdiv_of_ne_zero _ _ (by norm_num), castUint8_fin,
          show ((-1 : ℚ) - 0) * 255 / (255 - 0) = ((-1 : ℤ) : ℚ) from by norm_num,
          truncToZero_intCast]
      decide
    have h0 : rescaleCell 0 255 (FVal.fin 0) = 0 := by
      show castUint8 (fdiv (((0 : ℚ) - 0) * 255) (255 - 0)) = 0
      rw [fdiv_of_ne_zero _ _ (by norm_num), castUint8_fin,
          show ((0 : ℚ) - 0) * 255 / (255 - 0) = ((0 : ℤ) : ℚ) from by norm_num,
          truncToZero_intCast]
      decide
    rw [h1, h0]
  · unfold rescaleClampedSpec
    rw [List.map_cons, List.map_replicate]
    have h1 : clampUint8Spec ((nan_to_num (FVal.fin (-1)) - 0) * 255 / (255 - 0)) = 0 := by
      show clampUint8Spec (((-1 : ℚ) - 0) * 255 / (255 - 0)) = 0
      rw [show ((-1 : ℚ) - 0) * 255 / (255 - 0) = ((-1 : ℤ) : ℚ) from by norm_num,
          clampUint8Spec, truncToZero_intCast]
      decide
    have h0 : clampUint8Spec ((nan_to_num (FVal.fin 0) - 0) * 255 / (255 - 0)) = 0 := by
      show clampUint8Spec (((0 : ℚ) - 0) * 255 / (255 - 0)) = 0
      rw [show ((0 : ℚ) - 0) * 255 / (255 - 0) = ((0 : ℤ) : ℚ) from by norm_num,
          clampUint8Spec, truncToZero_intCast]
      decide
    rw [h1, h0]

/-- C2 as amended.  With `max > min`, rescaling replaces NaN cells by 0 and
maps each cell to `(t − min) * 255 / (max − min)` truncated toward zero and
reduced modulo 2^8 (wrapped), not clamped. -/
theorem C2_rescale_truncates_and_wraps (f : List FVal) (Tmin Tmax : ℚ)
    (hlt : Tmin < Tmax) (hlen : f.length = 768) :
    nan_to_num FVal.nan = 0 ∧
    temps_to_rescaled_uints f Tmin Tmax
      = Except.ok (f.map (fun c =>
          ((truncToZero ((nan_to_num c - Tmin) * 255 / (Tmax - Tmin)) % (2 ^ 8 : ℤ)).toNat))) := by
  refine ⟨rfl, ?_⟩
  unfold temps_to_rescaled_uints
  rw [if_pos (by omega)]
  refine congrArg Except.ok (List.map_congr_left fun c _ => ?_)
  have hne : Tmax - Tmin ≠ 0 := sub_ne_zero.2 (ne_of_gt hlt)
  unfold rescaleCell
  rw [fdiv_of_ne_zero _ _ hne, castUint8_fin]

/-- Witness for C2 as amended, at the counterexample frame. -/
theorem C2_witness :
    nan_to_num FVal.nan = 0 ∧
    temps_to_rescaled_uints (FVal.fin (-1) :: List.replicate 767 (FVal.fin 0)) 0 255
      = Except.ok ((FVal.fin (-1) :: List.replicate 767 (FVal.fin 0)).map (fun c =>
          ((truncToZero ((nan_to_num c - 0) * 255 / (255 - 0)) % (2 ^ 8 : ℤ)).toNat))) :=
  C2_rescale_truncates_and_wraps _ 0 255 (by norm_num) (by rw [List.length_cons, List.length_replicate])

/-- C7.  From any in-range state, cycling the colormap stays in `[0, 8]` and
cycling the interpolation stays in `[0, 6]`; nine forward colormap steps
(seven forward interpolation steps) return to the start, and one backward step
undoes one forward step. -/
theorem C7_cycling_wraps_and_inverts (i j : ℤ)
    (hi0 : 0 ≤ i) (hi8 : i ≤ 8) (hj0 : 0 ≤ j) (hj6 : j ≤ 6) :
    (0 ≤ change_colormap i true ∧ change_colormap i true ≤ 8) ∧
    (0 ≤ change_colormap i false ∧ change_colormap i false ≤ 8) ∧
    (fun k => change_colormap k true)^[9] i = i ∧
    change_colormap (change_colormap i true) false = i ∧
    (0 ≤ change_interpolation j true ∧ change_interpolation j true ≤ 6) ∧
    (0 ≤ change_interpolation j false ∧ change_interpolation j false ≤ 6) ∧
    (fun k => change_interpolation k true)^[7] j = j ∧
    change_interpolation (change_interpolation j true) false = j := by
  interval_cases i <;> interval_cases j <;> decide

/-- Witness for C7 at the initial render state
(`colormapIndex = 0`, `interpolationIndex = 3`). -/
theorem C7_witness :
    (0 ≤ change_colormap 0 true ∧ change_colormap 0 true ≤ 8) ∧
    (0 ≤ change_colormap 0 false ∧ change_colormap 0 false ≤ 8) ∧
    (fun k => change_colormap k true)^[9] 0 = 0 ∧
    change_colormap (change_colormap 0 true) false = 0 ∧
    (0 ≤ change_interpolation 3 true ∧ change_interpolation 3 true ≤ 6) ∧
    (0 ≤ change_interpolation 3 false ∧ change_interpolation 3 false ≤ 6) ∧
    (fun k => change_interpolation k true)^[7] 3 = 3 ∧
    change_interpolation (change_interpolation 3 true) false = 3 :=
  C7_cycling_wraps_and_inverts 0 3 (by decide) (by decide) (by decide) (by decide)

theorem foldl_min_le_init (l : List ℚ) (a : ℚ) : l.foldl min a ≤ a := by
  induction l generalizing a with
  | nil => exact le_refl a
  | cons x xs ih => exact le_trans (ih (min a x)) (min_le_left a x)

theorem foldl_min_le_mem (l : List ℚ) (a x : ℚ) (hx : x ∈ l) : l.foldl min a ≤ x := by
  induction l generalizing a with
  | nil => cases hx
  | cons y ys ih =>
    rcases List.mem_cons.1 hx with rfl | hy
    · exact le_trans (foldl_min_le_init ys (min a x)) (min_le_right a x)
    · exact ih (min a y) hy

theorem foldl_min_mem (l : List ℚ) (a : ℚ) : l.foldl min a = a ∨ l.foldl min a ∈ l := by
  induction l generalizing a with
  | nil => exact Or.inl rfl
  | cons x xs ih =>
    rcases ih (min a x) with h | h
    · rcases min_cases a x with ⟨hm, _⟩ | ⟨hm, _⟩
      · exact Or.inl (by rw [List.foldl_cons, h, hm])
      · exact Or.inr (by rw [List.foldl_cons, h, hm]; exact List.mem_cons_self x xs)
    · exact Or.inr (List.mem_cons_of_mem x h)

theorem foldl_max_init_le (l : List ℚ) (a : ℚ) : a ≤ l.foldl max a := by
  induction l generalizing a with
  | nil => exact le_refl a
  | cons x xs ih => exact le_trans (le_max_left a x) (ih (max a x))

theorem foldl_max_mem_le (l : List ℚ) (a x : ℚ) (hx : x ∈ l) : x ≤ l.foldl max a := by
  induction l generalizing a with
  | nil => cases hx
  | cons y ys ih =>
    rcases List.mem_cons.1 hx with rfl | hy
    · exact le_trans (le_max_right a x) (foldl_max_init_le ys (max a x))
    · exact ih (max a y) hy

theorem foldl_max_mem (l : List ℚ) (a : ℚ) : l.foldl max a = a ∨ l.foldl max a ∈ l := by
  induction l generalizing a with
  | nil => exact Or.inl rfl
  | cons x xs ih =>
    rcases ih (max a x) with h | h
    · rcases max_cases a x with ⟨hm, _⟩ | ⟨hm, _⟩
      · exact Or.inl (by rw [List.foldl_cons, h, hm])
      · exact Or.inr (by rw [List.foldl_cons, h, hm]; exact List.mem_cons_self x xs)
    · exact Or.inr (List.mem_cons_of_mem x h)

theorem np_min_spec (l : List ℚ) (hl : l ≠ []) :
    ∃ mn, np_min l = some mn ∧ mn ∈ l ∧ ∀ x ∈ l, mn ≤ x := by
  match l, hl with
  | x :: xs, _ =>
    refine ⟨xs.foldl min x, rfl, ?_, ?_⟩
    · rcases foldl_min_mem xs x with h | h
      · rw [h]; exact List.mem_cons_self x xs
      · exact List.mem_cons_of_mem x h
    · intro y hy
      rcases List.mem_cons.1 hy with rfl | hy
      · exact foldl_min_le_init xs y
      · exact foldl_min_le_mem xs x y hy

theorem np_max_spec (l : List ℚ) (hl : l ≠ []) :
    ∃ mx, np_max l = some mx ∧ mx ∈ l ∧ ∀ x ∈ l, x ≤ mx := by
  match l, hl with
  | x :: xs, _ =>
    refine ⟨xs.foldl max x, rfl, ?_, ?_⟩
    · rcases foldl_max_mem xs x with h | h
      · rw [h]; exact List.mem_cons_self x xs
      · exact List.mem_cons_of_mem x h
    · intro y hy
      rcases List.mem_cons.1 hy with rfl | hy
      · exact foldl_max_init_le xs y
      · exact foldl_max_mem_le xs x y hy

/-- C4.  With at least one cell above −50 °C, `get_min_max` with
`exclude_dead_px = true` returns the minimum of the cells strictly above
−50 °C, while `exclude_dead_px = false` returns the minimum of all cells; the
maximum is the same in both cases and ranges over all 768 cells, sentinel
cells included. -/
theorem C4_min_excludes_dead_max_does_not (f : List ℚ) (hlen : f.length = 768)
    (hx : ∃ x ∈ f, -50 < x) :
    ∃ mn mx mn2,
      get_min_max f true = some (mn, mx) ∧
      get_min_max f false = some (mn2, mx) ∧
      mn ∈ f ∧ -50 < mn ∧ (∀ x ∈ f, -50 < x → mn ≤ x) ∧
      mn2 ∈ f ∧ (∀ x ∈ f, mn2 ≤ x) ∧
      mx ∈ f ∧ (∀ x ∈ f, x ≤ mx) := by
  rcases hx with ⟨x0, hx0f, hx0⟩
  have hpool : x0 ∈ f.filter (fun x => -50 < x) :=
    List.mem_filter.2 ⟨hx0f, by simpa using hx0⟩
  have hfne : f ≠ [] := List.ne_nil_of_mem hx0f
  rcases np_min_spec _ (List.ne_nil_of_mem hpool) with ⟨mn, hmn, hmnmem, hmnle⟩
  rcases np_min_spec f hfne with ⟨mn2, hmn2, hmn2mem, hmn2le⟩
  rcases np_max_spec f hfne with ⟨mx, hmx, hmxmem, hmxge⟩
  refine ⟨mn, mx, mn2, ?_, ?_, ?_, ?_, ?_, hmn2mem, hmn2le, hmxmem, hmxge⟩
  · rw [get_min_max, if_pos rfl, hmn, hmx]
  · rw [get_min_max, if_neg Bool.false_ne_true, hmn2, hmx]
  · exact (List.mem_filter.1 hmnmem).1
  · simpa using (List.mem_filter.1 hmnmem).2
  · intro y hy hy50
    exact hmnle y (List.mem_filter.2 ⟨hy, by simpa using hy50⟩)

/-- Witness for C4 at a frame holding one sentinel cell and 767 cells at
25 °C: the excluded minimum is 25 while the shared maximum is 25. -/
theorem C4_witness :
    ∃ mn mx mn2,
      get_min_max (sentinel :: List.replicate 767 (25 : ℚ)) true = some (mn, mx) ∧
      get_min_max (sentinel :: List.replicate 767 (25 : ℚ)) false = some (mn2, mx) ∧
      mn ∈ sentinel :: List.replicate 767 (25 : ℚ) ∧ -50 < mn ∧
      (∀ x ∈ sentinel :: List.replicate 767 (25 : ℚ), -50 < x → mn ≤ x) ∧
      mn2 ∈ sentinel :: List.replicate 767 (25 : ℚ) ∧
      (∀ x ∈ sentinel :: List.replicate 767 (25 : ℚ), mn2 ≤ x) ∧
      mx ∈ sentinel :: List.replicate 767 (25 : ℚ) ∧
      (∀ x ∈ sentinel :: List.replicate 767 (25 : ℚ), x ≤ mx) :=
  C4_min_excludes_dead_max_does_not _
    (by rw [List.length_cons, List.length_replicate])
    ⟨25, List.mem_cons_of_mem _ (List.mem_replicate.2 ⟨by norm_num, rfl⟩), by norm_num⟩

/-- Counterexample to C6 as stated.  The all-sentinel frame is correctly
shaped (768 cells), yet `get_min_max` with `exclude_dead_px = true` has no
result: every cell is at −273.15 ≤ −50 °C, the filtered selection is empty,
and `np.min` of an empty selection raises `ValueError`. -/
theorem C6_counterexample :
    (List.replicate 768 sentinel).length = 768 ∧
    get_min_max (List.replicate 768 sentinel) true = none := by
  refine ⟨by rw [List.length_replicate], ?_⟩
  rw [get_min_max, if_pos rfl]
  rw [show (List.replicate 768 sentinel).filter (fun x => -50 < x) = [] from ?_]
  · rfl
  · rw [List.filter_replicate, if_neg ?_]
    rw [show sentinel = ((-5463 : ℤ) : ℚ) / ((20 : ℤ) : ℚ) from by
          rw [sentinel_eq]; norm_num]
    norm_num

/-- C6 as amended.  For a correctly shaped frame holding at least one cell
strictly above −50 °C, both variants of `get_min_max` return a complete
result; the all-sentinel frame (no such cell) is the one correctly-shaped
input on which the exclude-dead-pixels minimum raises. -/
theorem C6_total_on_frames_with_live_cell (f : List ℚ) (hlen : f.length = 768)
    (hx : ∃ x ∈ f, -50 < x) :
    (get_min_max f true).isSome ∧ (get_min_max f false).isSome := by
  rcases hx with ⟨x0, hx0f, hx0⟩
  have hpool : x0 ∈ f.filter (fun x => -50 < x) :=
    List.mem_filter.2 ⟨hx0f, by simpa using hx0⟩
  have hfne : f ≠ [] := List.ne_nil_of_mem hx0f
  rcases np_min_spec _ (List.ne_nil_of_mem hpool) with ⟨mn, hmn, -, -⟩
  rcases np_min_spec f hfne with ⟨mn2, hmn2, -, -⟩
  rcases np_max_spec f hfne with ⟨mx, hmx, -, -⟩
  constructor
  · rw [get_min_max, if_pos rfl, hmn, hmx]
    rfl
  · rw [get_min_max, if_neg Bool.false_ne_true, hmn2, hmx]
    rfl

/-- Witness for the amended C6 at a frame of 768 cells at 20 °C. -/
theorem C6_witness :
    (get_min_max (List.replicate 768 (20 : ℚ)) true).isSome ∧
    (get_min_max (List.replicate 768 (20 : ℚ)) false).isSome :=
  C6_total_on_frames_with_live_cell _
    (by rw [List.length_replicate])
    ⟨20, List.mem_replicate.2 ⟨by norm_num, rfl⟩, by norm_num⟩

/-- Counterexample to C10 as stated.  A correctly shaped frame (768 cells, all
at −100 °C) still makes a public operation fail: `get_min_max` with
`exclude_dead_px = true` filters out every cell and `np.min` raises on the
empty selection — so wrong shape is not the only error condition surfaced to
a caller, and the error raised is a plain `ValueError`, not a distinct
`InvalidFrameShape` type. -/
theorem C10_counterexample :
    (List.replicate 768 (-100 : ℚ)).length = 768 ∧
    get_min_max (List.replicate 768 (-100 : ℚ)) true = none := by
  refine ⟨by rw [List.length_replicate], ?_⟩
  rw [get_min_max, if_pos rfl]
  rw [show (List.replicate 768 (-100 : ℚ)).filter (fun x => -50 < x) = [] from ?_]
  · rfl
  · rw [List.filter_replicate, if_neg (by norm_num)]

/-- C10 as amended.  The rescaling step errors exactly on wrongly shaped
frames (the reshape to 24×32 fails, as a generic `ValueError` rather than a
distinct `InvalidFrameShape`), and wrong shape is not the only condition a
public operation can propagate: there is a correctly shaped 768-cell frame on
which `get_min_max(…, exclude_dead_px=True)` raises as well. -/
theorem C10_shape_error_not_distinct_not_only (f : List FVal) (Tmin Tmax : ℚ) :
    (temps_to_rescaled_uints f Tmin Tmax = Except.error () ↔ f.length ≠ 768) ∧
    (∃ g : List ℚ, g.length = 768 ∧ get_min_max g true = none) := by
  constructor
  · unfold temps_to_rescaled_uints
    constructor
    · intro h
      intro hlen
      rw [if_pos (by omega)] at h
      cases h
    · intro hlen
      rw [if_neg (by omega)]
  · refine ⟨List.replicate 768 sentinel, by rw [List.length_replicate], ?_⟩
    rw [get_min_max, if_pos rfl]
    rw [show (List.replicate 768 sentinel).filter (fun x => -50 < x) = [] from ?_]
    · rfl
    · rw [List.filter_replicate, if_neg ?_]
      rw [show sentinel = ((-5463 : ℤ) : ℚ) / ((20 : ℤ) : ℚ) from by
            rw [sentinel_eq]; norm_num]
      norm_num

/-- Witness for the amended C10 at a 767-cell (wrongly shaped) frame. -/
theorem C10_witness :
    (temps_to_rescaled_uints (List.replicate 767 (FVal.fin 20)) 0 100 = Except.error ()
      ↔ (List.replicate 767 (FVal.fin 20)).length ≠ 768) ∧
    (∃ g : List ℚ, g.length = 768 ∧ get_min_max g true = none) :=
  C10_shape_error_not_distinct_not_only (List.replicate 767 (FVal.fin 20)) 0 100

theorem mem_rowMajorCells (rows cols : ℕ) (p : ℕ × ℕ) :
    p ∈ rowMajorCells rows cols ↔ p.1 < rows ∧ p.2 < cols := by
  cases p with
  | mk i j =>
    simp [rowMajorCells, List.mem_flatMap, List.mem_map, List.mem_range]

theorem deadPixels_eq_nil (rows cols : ℕ) (g : Grid)
    (h : ∀ i j, i < rows → j < cols → g i j ≠ sentinel) :
    deadPixels rows cols g = [] := by
  rw [deadPixels, List.filter_eq_nil_iff]
  intro p hp
  rw [mem_rowMajorCells] at hp
  simpa using h p.1 p.2 hp.1 hp.2

theorem range'_three (s : ℕ) : List.range' s 3 = [s, s + 1, s + 2] := rfl

theorem neighborhood_length (rows cols i j : ℕ) :
    (neighborhood rows cols i j).length
      = (min rows (i + 2) - (i - 1)) * (min cols (j + 2) - (j - 1)) := by
  rw [neighborhood, List.length_flatMap]
  rw [show (List.map
        (List.length ∘ fun a =>
          (List.range' (j - 1) (min cols (j + 2) - (j - 1))).map (fun b => (a, b)))
        (List.range' (i - 1) (min rows (i + 2) - (i - 1))))
      = List.replicate (min rows (i + 2) - (i - 1)) (min cols (j + 2) - (j - 1)) from ?_]
  · rw [List.sum_replicate, smul_eq_mul]
  · rw [show (List.length ∘ fun a =>
          (List.range' (j - 1) (min cols (j + 2) - (j - 1))).map (fun b => (a, b)))
        = fun _ => (min cols (j + 2) - (j - 1)) from
          funext fun a => by simp [List.length_map, List.length_range']]
    rw [List.map_const', List.length_range']

theorem neighborhood_interior (a b : ℕ) (ha : a ≤ 21) (hb : b ≤ 29) :
    neighborhood 24 32 (a + 1) (b + 1)
      = [(a, b), (a, b + 1), (a, b + 2),
         (a + 1, b), (a + 1, b + 1), (a + 1, b + 2),
         (a + 2, b), (a + 2, b + 1), (a + 2, b + 2)] := by
  rw [neighborhood]
  rw [show min 24 (a + 1 + 2) = a + 3 from by omega,
      show min 32 (b + 1 + 2) = b + 3 from by omega,
      show a + 1 - 1 = a from rfl, show b + 1 - 1 = b from rfl,
      show a + 3 - a = 3 from by omega, show b + 3 - b = 3 from by omega]
  rw [range'_three, range'_three]
  rfl

/-- C3.  When the original grid has exactly one sentinel cell, at (i, j), the
repair writes in place the sum of the clipped neighborhood (the faulty cell
included) divided by (neighborhood cell count − 1); at a non-border cell that
is the full 3×3 sum divided by 8; every neighborhood of a 24×32 grid has at
least 4 cells, so the divisor is at least 3 and never zero. -/
theorem C3_single_dead_pixel_repair (g : Grid) (i j : ℕ)
    (h : deadPixels 24 32 g = [(i, j)]) :
    fix_broken_pixels 24 32 g
        = setCell g i j
            ((((neighborhood 24 32 i j).map (fun p => g p.1 p.2)).sum) /
              (((neighborhood 24 32 i j).length : ℚ) - 1)) ∧
    (0 < i → i < 23 → 0 < j → j < 31 →
      fix_broken_pixels 24 32 g
        = setCell g i j
            ((g (i - 1) (j - 1) + g (i - 1) j + g (i - 1) (j + 1) +
              g i (j - 1) + g i j + g i (j + 1) +
              g (i + 1) (j - 1) + g (i + 1) j + g (i + 1) (j + 1)) / 8)) ∧
    (∀ a b : ℕ, a < 24 → b < 32 →
      4 ≤ (neighborhood 24 32 a b).length ∧
      (((neighborhood 24 32 a b).length : ℚ) - 1 ≠ 0)) := by
  refine ⟨?_, ?_, ?_⟩
  · rw [fix_broken_pixels, h]
    rfl
  · intro hi0 hi23 hj0 hj31
    obtain ⟨a, rfl⟩ : ∃ a, i = a + 1 := ⟨i - 1, by omega⟩
    obtain ⟨b, rfl⟩ : ∃ b, j = b + 1 := ⟨j - 1, by omega⟩
    rw [fix_broken_pixels, h]
    show fix_dead_pixel_value 24 32 g (a + 1) (b + 1) = _
    rw [fix_dead_pixel_value, neighborhood_interior a b (by omega) (by omega)]
    simp only [Nat.add_sub_cancel]
    refine congrArg (setCell g (a + 1) (b + 1)) ?_
    simp only [List.map_cons, List.map_nil, List.sum_cons, List.sum_nil,
      List.length_cons, List.length_nil]
    norm_num
    ring_nf
  · intro a b ha hb
    have hr : 2 ≤ min 24 (a + 2) - (a - 1) := by omega
    have hc : 2 ≤ min 32 (b + 2) - (b - 1) := by omega
    have hlen : 4 ≤ (neighborhood 24 32 a b).length := by
      rw [neighborhood_length]
      calc (4 : ℕ) = 2 * 2 := rfl
        _ ≤ _ := Nat.mul_le_mul hr hc
    refine ⟨hlen, ?_⟩
    intro heq
    have h1 : ((neighborhood 24 32 a b).length : ℚ) = ((1 : ℕ) : ℚ) := by
      rw [sub_eq_zero] at heq
      rw [heq]
      norm_num
    have h2 : (neighborhood 24 32 a b).length = 1 := Nat.cast_inj.1 h1
    omega

/-- Witness for C3 at the grid with a single dead pixel at the interior cell
(5, 7), every other cell at 1 °C. -/
theorem C3_witness :
    fix_broken_pixels 24 32 gOneDead
      = setCell gOneDead 5 7
          ((((neighborhood 24 32 5 7).map (fun p => gOneDead p.1 p.2)).sum) /
            (((neighborhood 24 32 5 7).length : ℚ) - 1)) :=
  (C3_single_dead_pixel_repair gOneDead 5 7 (by set_option maxRecDepth 4000 in decide)).1

theorem castUint8_le (v : FVal) : castUint8 v ≤ 255 := by
  cases v with
  | nan => exact Nat.zero_le _
  | posinf => exact Nat.zero_le _
  | neginf => exact Nat.zero_le _
  | fin q =>
    show (truncToZero q % (2 ^ 8 : ℤ)).toNat ≤ 255
    have h1 := Int.emod_lt_of_pos (truncToZero q) (show (0 : ℤ) < 2 ^ 8 from by norm_num)
    have h2 := Int.emod_nonneg (truncToZero q) (show (2 ^ 8 : ℤ) ≠ 0 from by norm_num)
    omega

theorem getD_le_255 (l : List ℕ) (hl : ∀ x ∈ l, x ≤ 255) (n : ℕ) : l.getD n 0 ≤ 255 := by
  induction l generalizing n with
  | nil =>
    cases n <;> exact Nat.zero_le _
  | cons x xs ih =>
    cases n with
    | zero => exact hl x (List.mem_cons_self _ _)
    | succ m => exact ih (fun y hy => hl y (List.mem_cons_of_mem _ hy)) m

/-- C5.  On a grid of 8-bit intensities no cell can equal the sentinel −273.15,
so the repair pass finds no dead pixel and changes nothing; in particular, in
the order `_pull_raw_image` actually implements — rescale to uint8 first, then
`fix_broken_pixels` — the repair never modifies any cell of any frame. -/
theorem C5_repair_is_noop_after_rescale :
    (∀ g : Grid, (∀ i j, i < 24 → j < 32 → ∃ n : ℕ, n ≤ 255 ∧ g i j = (n : ℚ)) →
        fix_broken_pixels 24 32 g = g) ∧
    (∀ (f : List FVal) (Tmin Tmax : ℚ) (l : List ℕ),
        temps_to_rescaled_uints f Tmin Tmax = Except.ok l →
        fix_broken_pixels 24 32 (gridOfList l) = gridOfList l) := by
  have hpart1 : ∀ g : Grid,
      (∀ i j, i < 24 → j < 32 → ∃ n : ℕ, n ≤ 255 ∧ g i j = (n : ℚ)) →
      fix_broken_pixels 24 32 g = g := by
    intro g hg
    rw [fix_broken_pixels, deadPixels_eq_nil 24 32 g ?_]
    · rfl
    · intro i j hi hj
      rcases hg i j hi hj with ⟨n, -, hn⟩
      rw [hn, sentinel_eq]
      intro heq
      have h0 : (0 : ℚ) ≤ ((n : ℕ) : ℚ) := Nat.cast_nonneg n
      rw [heq] at h0
      norm_num at h0
  refine ⟨hpart1, ?_⟩
  intro f Tmin Tmax l hl
  have hmap : l = f.map (rescaleCell Tmin Tmax) := by
    unfold temps_to_rescaled_uints at hl
    split at hl
    · cases hl
      rfl
    · cases hl
  apply hpart1
  intro i j hi hj
  refine ⟨l.getD (i * 32 + j) 0, ?_, rfl⟩
  refine getD_le_255 l ?_ _
  intro x hx
  rw [hmap] at hx
  rcases List.mem_map.1 hx with ⟨c, -, rfl⟩
  exact castUint8_le _

/-- Witness for C5: the rescaled all-30 °C frame produces the all-zero uint8
grid, on which the repair pass is the identity. -/
theorem C5_witness :
    fix_broken_pixels 24 32 (gridOfList (List.replicate 768 0))
      = gridOfList (List.replicate 768 0) :=
  C5_repair_is_noop_after_rescale.2 (List.replicate 768 (FVal.fin 30)) 30 30 _
    (by unfold temps_to_rescaled_uints
        rw [if_pos (by rw [List.length_replicate])]
        rw [List.map_replicate, rescaleCell_self_eq_zero])

theorem rmLtb_iff (p q : ℕ × ℕ) : rmLtb p q = true ↔ rmLt p q := by
  simp [rmLtb, rmLt]

theorem chain'_of_chainRmLt : ∀ l : List (ℕ × ℕ), chainRmLt l = true → List.Chain' rmLt l
  | [], _ => List.chain'_nil
  | [_], _ => List.chain'_singleton _
  | p :: q :: rest, h => by
    rw [chainRmLt, Bool.and_eq_true] at h
    exact List.chain'_cons.2 ⟨(rmLtb_iff p q).1 h.1, chain'_of_chainRmLt (q :: rest) h.2⟩

theorem rowMajorCells_pairwise : (rowMajorCells 24 32).Pairwise rmLt := by
  rw [← List.chain'_iff_pairwise]
  refine chain'_of_chainRmLt _ ?_
  set_option maxRecDepth 10000 in decide

/-- C9.  `np.argwhere` lists the cells that were faulty in the original grid
in row-major order; the fold repairs them in that order, each repair reading
the grid as left by the previous ones.  At the concrete grid with adjacent
dead pixels (0,0) and (0,1): cell (0,0) is repaired first to −5443/30, and
the repair of (0,1) then averages against that repaired value (giving
−5407/60), not against the original sentinel — the cascade. -/
theorem C9_cascading_in_place_repair :
    (∀ g : Grid, (deadPixels 24 32 g).Pairwise rmLt) ∧
    (∀ (g : Grid) (p q : ℕ × ℕ), deadPixels 24 32 g = [p, q] →
      fix_broken_pixels 24 32 g
        = fix_dead_pixel_value 24 32 (fix_dead_pixel_value 24 32 g p.1 p.2) q.1 q.2) ∧
    (deadPixels 24 32 gTwoDead = [(0, 0), (0, 1)] ∧
     fix_broken_pixels 24 32 gTwoDead 0 0 = -5443 / 30 ∧
     fix_broken_pixels 24 32 gTwoDead 0 1 = -5407 / 60 ∧
     (-5407 / 60 : ℚ) = (-5443 / 30 + (-27315 / 100) + 1 + 1 + 1 + 1) / 5 ∧
     (-5443 / 30 + (-27315 / 100) + 1 + 1 + 1 + 1 : ℚ) / 5
        ≠ ((-27315 / 100) + (-27315 / 100) + 1 + 1 + 1 + 1) / 5) := by
  have hdp : deadPixels 24 32 gTwoDead = [(0, 0), (0, 1)] := by
    set_option maxRecDepth 10000 in decide
  have hfold : fix_broken_pixels 24 32 gTwoDead
      = fix_dead_pixel_value 24 32 (fix_dead_pixel_value 24 32 gTwoDead 0 0) 0 1 := by
    rw [fix_broken_pixels, hdp]
    rfl
  have hv1 : fix_dead_pixel_value 24 32 gTwoDead 0 0
      = setCell gTwoDead 0 0 (-5443 / 30) := by
    rw [fix_dead_pixel_value]
    refine congrArg (setCell gTwoDead 0 0) ?_
    rw [show neighborhood 24 32 0 0 = [(0, 0), (0, 1), (1, 0), (1, 1)] from rfl]
    rw [show ([((0 : ℕ), (0 : ℕ)), (0, 1), (1, 0), (1, 1)].map
          (fun p => gTwoDead p.1 p.2)) = [sentinel, sentinel, 1, 1] from rfl]
    rw [sentinel_eq]
    norm_num [List.sum_cons]
  have hv2 : fix_dead_pixel_value 24 32 (setCell gTwoDead 0 0 (-5443 / 30)) 0 1
      = setCell (setCell gTwoDead 0 0 (-5443 / 30)) 0 1 (-5407 / 60) := by
    rw [fix_dead_pixel_value]
    refine congrArg (setCell (setCell gTwoDead 0 0 (-5443 / 30)) 0 1) ?_
    rw [show neighborhood 24 32 0 1 = [(0, 0), (0, 1), (0, 2), (1, 0), (1, 1), (1, 2)] from rfl]
    rw [show ([((0 : ℕ), (0 : ℕ)), (0, 1), (0, 2), (1, 0), (1, 1), (1, 2)].map
          (fun p => (setCell gTwoDead 0 0 (-5443 / 30)) p.1 p.2))
        = [-5443 / 30, sentinel, 1, 1, 1, 1] from rfl]
    rw [sentinel_eq]
    norm_num [List.sum_cons]
  refine ⟨?_, ?_, hdp, ?_, ?_, by norm_num, by norm_num⟩
  · intro g
    exact List.Pairwise.sublist (List.filter_sublist _) rowMajorCells_pairwise
  · intro g p q h
    rw [fix_broken_pixels, h]
    rfl
  · rw [hfold, hv1, hv2]
    show (if (0 = 0 ∧ 0 = 1) then (-5407 / 60 : ℚ)
          else (setCell gTwoDead 0 0 (-5443 / 30)) 0 0) = -5443 / 30
    rw [if_neg (by omega)]
    show (if (0 = 0 ∧ 0 = 0) then (-5443 / 30 : ℚ) else gTwoDead 0 0) = -5443 / 30
    rw [if_pos ⟨rfl, rfl⟩]
  · rw [hfold, hv1, hv2]
    show (if (0 = 0 ∧ 1 = 1) then (-5407 / 60 : ℚ)
          else (setCell gTwoDead 0 0 (-5443 / 30)) 0 1) = -5407 / 60
    rw [if_pos ⟨rfl, rfl⟩]

/-- Witness for C9: at the two-dead-pixel grid, the full repair is the two
single-cell repairs in row-major order, the second applied to the grid
already holding the first repair. -/
theorem C9_witness :
    fix_broken_pixels 24 32 gTwoDead
      = fix_dead_pixel_value 24 32 (fix_dead_pixel_value 24 32 gTwoDead 0 0) 0 1 :=
  C9_cascading_in_place_repair.2.1 gTwoDead (0, 0) (0, 1)
    (by set_option maxRecDepth 10000 in decide)

theorem firstMultAbove_spec (x : ℚ) (s : ℤ) (hs : 0 < s) :
    s ∣ firstMultAbove x s ∧ x < ((firstMultAbove x s : ℤ) : ℚ) ∧
    ∀ m : ℤ, s ∣ m → x < (m : ℚ) → firstMultAbove x s ≤ m := by
  have hsQ : (0 : ℚ) < (s : ℚ) := by exact_mod_cast hs
  refine ⟨⟨⌊x / (s : ℚ)⌋ + 1, rfl⟩, ?_, ?_⟩
  · rw [firstMultAbove]
    have h := Int.lt_floor_add_one (x / (s : ℚ))
    calc x = (x / (s : ℚ)) * (s : ℚ) := by field_simp
      _ < ((⌊x / (s : ℚ)⌋ : ℚ) + 1) * (s : ℚ) := mul_lt_mul_of_pos_right h hsQ
      _ = ((s * (⌊x / (s : ℚ)⌋ + 1) : ℤ) : ℚ) := by push_cast; ring
  · rintro m ⟨c, rfl⟩ hxm
    have h1 : x / (s : ℚ) < (c : ℚ) := by
      rw [div_lt_iff hsQ]
      calc x < ((s * c : ℤ) : ℚ) := hxm
        _ = (c : ℚ) * (s : ℚ) := by push_cast; ring
    have h2 : ⌊x / (s : ℚ)⌋ + 1 ≤ c := Int.floor_lt.2 h1
    rw [firstMultAbove]
    exact mul_le_mul_of_nonneg_left h2 (le_of_lt hs)

theorem get_t_ticks_fst (tmin tmax step : ℚ) (s : ℤ) (hs : 0 < s)
    (hstep : step = (s : ℚ)) (b0 b1 : ℚ) :
    (get_t_ticks tmin tmax step b0 b1).1
      = (List.range ((⌊tmax / (s : ℚ)⌋ - ⌊tmin / (s : ℚ)⌋).toNat)).map
          (fun k : ℕ => firstMultAbove tmin s + (k : ℤ) * s) := by
  subst hstep
  have hstart : tmin - pymod tmin (s : ℚ) + (s : ℚ)
      = ((firstMultAbove tmin s : ℤ) : ℚ) := by
    rw [pymod, firstMultAbove]; push_cast; ring
  have hstop : tmax - pymod tmax (s : ℚ) + (s : ℚ)
      = ((firstMultAbove tmax s : ℤ) : ℚ) := by
    rw [pymod, firstMultAbove]; push_cast; ring
  show (arange (tmin - pymod tmin (s : ℚ) + (s : ℚ))
        (tmax - pymod tmax (s : ℚ) + (s : ℚ)) (s : ℚ)).map truncToZero = _
  rw [arange, hstart, hstop]
  have hq : (((firstMultAbove tmax s : ℤ) : ℚ) - ((firstMultAbove tmin s : ℤ) : ℚ)) / (s : ℚ)
      = ((⌊tmax / (s : ℚ)⌋ - ⌊tmin / (s : ℚ)⌋ : ℤ) : ℚ) := by
    rw [firstMultAbove, firstMultAbove]
    field_simp
    ring
  rw [hq, Int.ceil_intCast, List.map_map]
  refine List.map_congr_left ?_
  intro k _
  show truncToZero (((firstMultAbove tmin s : ℤ) : ℚ) + (k : ℚ) * (s : ℚ)) = _
  rw [show ((firstMultAbove tmin s : ℤ) : ℚ) + (k : ℚ) * (s : ℚ)
        = ((firstMultAbove tmin s + (k : ℤ) * s : ℤ) : ℚ) from by push_cast; ring,
      truncToZero_intCast]

theorem get_t_ticks_concrete :
    get_t_ticks (51 / 5) (307 / 10) 5 530 50
      = ([15, 20, 25, 30], [417, 300, 183, 66]) := by
  have hticks : (get_t_ticks (51 / 5) (307 / 10) 5 530 50).1 = [15, 20, 25, 30] := by
    rw [get_t_ticks_fst (51 / 5) (307 / 10) 5 5 (by decide) (by norm_num) 530 50]
    rw [show ⌊(307 / 10 : ℚ) / ((5 : ℤ) : ℚ)⌋ = 6 from by norm_num,
        show ⌊(51 / 5 : ℚ) / ((5 : ℤ) : ℚ)⌋ = 2 from by norm_num]
    simp only [show firstMultAbove (51 / 5) 5 = 15 from by
      rw [firstMultAbove, show ⌊(51 / 5 : ℚ) / ((5 : ℤ) : ℚ)⌋ = 2 from by norm_num]
      decide]
    rw [show ((6 : ℤ) - 2).toNat = 4 from rfl,
        show List.range 4 = [0, 1, 2, 3] from rfl]
    simp only [List.map_cons, List.map_nil]
    norm_num
  have hsnd : (get_t_ticks (51 / 5) (307 / 10) 5 530 50).2
      = ((get_t_ticks (51 / 5) (307 / 10) 5 530 50).1).map
          (fun t : ℤ => truncToZero (interp (t : ℚ) (51 / 5) (307 / 10) 530 50)) := rfl
  have hpos : (get_t_ticks (51 / 5) (307 / 10) 5 530 50).2 = [417, 300, 183, 66] := by
    rw [hsnd, hticks]
    simp only [List.map_cons, List.map_nil]
    rw [show interp ((15 : ℤ) : ℚ) (51 / 5) (307 / 10) 530 50 = 17122 / 41 from by
          rw [interp, if_neg (by norm_num), if_neg (by norm_num)]; norm_num,
        show interp ((20 : ℤ) : ℚ) (51 / 5) (307 / 10) 530 50 = 12322 / 41 from by
          rw [interp, if_neg (by norm_num), if_neg (by norm_num)]; norm_num,
        show interp ((25 : ℤ) : ℚ) (51 / 5) (307 / 10) 530 50 = 7522 / 41 from by
          rw [interp, if_neg (by norm_num), if_neg (by norm_num)]; norm_num,
        show interp ((30 : ℤ) : ℚ) (51 / 5) (307 / 10) 530 50 = 2722 / 41 from by
          rw [interp, if_neg (by norm_num), if_neg (by norm_num)]; norm_num]
    rw [show truncToZero (17122 / 41 : ℚ) = 417 from by
          rw [truncToZero, if_pos (by norm_num)]; norm_num,
        show truncToZero (12322 / 41 : ℚ) = 300 from by
          rw [truncToZero, if_pos (by norm_num)]; norm_num,
        show truncToZero (7522 / 41 : ℚ) = 183 from by
          rw [truncToZero, if_pos (by norm_num)]; norm_num,
        show truncToZero (2722 / 41 : ℚ) = 66 from by
          rw [truncToZero, if_pos (by norm_num)]; norm_num]
  calc get_t_ticks (51 / 5) (307 / 10) 5 530 50
      = ((get_t_ticks (51 / 5) (307 / 10) 5 530 50).1,
         (get_t_ticks (51 / 5) (307 / 10) 5 530 50).2) := rfl
    _ = ([15, 20, 25, 30], [417, 300, 183, 66]) := by rw [hticks, hpos]

/-- C8.  For a positive integer step and `min < max`: the tick list of
`get_t_ticks` is the arithmetic sequence starting at the smallest multiple of
the step strictly greater than `min`, stepping by the step; its members are
exactly the multiples of the step strictly above `min` and strictly below the
smallest multiple strictly above `max`; `firstMultAbove` really is that
smallest multiple.  At `min = 10.2, max = 30.7, step = 5` with the bar rows
spanning `[530, 50]`, the ticks are `[15, 20, 25, 30]` in strictly increasing
temperature order at strictly decreasing row positions `[417, 300, 183, 66]`
(hottest nearest the top). -/
theorem C8_colorbar_ticks (s : ℤ) (hs : 0 < s) (tmin tmax b0 b1 : ℚ)
    (hlt : tmin < tmax) :
    (get_t_ticks tmin tmax (s : ℚ) b0 b1).1
        = (List.range ((⌊tmax / (s : ℚ)⌋ - ⌊tmin / (s : ℚ)⌋).toNat)).map
            (fun k : ℕ => firstMultAbove tmin s + (k : ℤ) * s) ∧
    (∀ m : ℤ, m ∈ (get_t_ticks tmin tmax (s : ℚ) b0 b1).1 ↔
        (s ∣ m ∧ tmin < (m : ℚ) ∧ m < firstMultAbove tmax s)) ∧
    (∀ x : ℚ, s ∣ firstMultAbove x s ∧ x < ((firstMultAbove x s : ℤ) : ℚ) ∧
        ∀ m : ℤ, s ∣ m → x < (m : ℚ) → firstMultAbove x s ≤ m) ∧
    (get_t_ticks (51 / 5) (307 / 10) 5 530 50 = ([15, 20, 25, 30], [417, 300, 183, 66]) ∧
      List.Chain' (fun a b => b < a) [(417 : ℤ), 300, 183, 66] ∧
      List.Chain' (fun a b => a < b) [(15 : ℤ), 20, 25, 30]) := by
  refine ⟨get_t_ticks_fst tmin tmax (s : ℚ) s hs rfl b0 b1, ?_,
    fun x => firstMultAbove_spec x s hs,
    get_t_ticks_concrete, by norm_num [List.chain'_cons], by norm_num [List.chain'_cons]⟩
  · intro m
    rw [get_t_ticks_fst tmin tmax (s : ℚ) s hs rfl b0 b1]
    simp only [List.mem_map, List.mem_range]
    constructor
    · rintro ⟨k, hk, rfl⟩
      refine ⟨⟨⌊tmin / (s : ℚ)⌋ + 1 + (k : ℤ), by rw [firstMultAbove]; ring⟩, ?_, ?_⟩
      · have h1 : tmin < ((firstMultAbove tmin s : ℤ) : ℚ) :=
          (firstMultAbove_spec tmin s hs).2.1
        have h2 : firstMultAbove tmin s ≤ firstMultAbove tmin s + (k : ℤ) * s := by
          have hk0 : (0 : ℤ) ≤ (k : ℤ) * s :=
            mul_nonneg (Int.natCast_nonneg k) (le_of_lt hs)
          omega
        calc tmin < ((firstMultAbove tmin s : ℤ) : ℚ) := h1
          _ ≤ _ := by exact_mod_cast h2
      · have hk2 : (k : ℤ) < ⌊tmax / (s : ℚ)⌋ - ⌊tmin / (s : ℚ)⌋ := by omega
        rw [firstMultAbove, firstMultAbove]
        have hle : ⌊tmin / (s : ℚ)⌋ + 1 + (k : ℤ) < ⌊tmax / (s : ℚ)⌋ + 1 := by omega
        calc (s : ℤ) * (⌊tmin / (s : ℚ)⌋ + 1) + (k : ℤ) * s
            = s * (⌊tmin / (s : ℚ)⌋ + 1 + (k : ℤ)) := by ring
          _ < s * (⌊tmax / (s : ℚ)⌋ + 1) := by
              exact mul_lt_mul_of_pos_left hle hs
    · rintro ⟨⟨c, rfl⟩, h1, h2⟩
      have hsQ : (0 : ℚ) < (s : ℚ) := by exact_mod_cast hs
      have hc1 : ⌊tmin / (s : ℚ)⌋ < c := by
        refine Int.floor_lt.2 ?_
        rw [div_lt_iff hsQ]
        calc tmin < ((s * c : ℤ) : ℚ) := h1
          _ = (c : ℚ) * (s : ℚ) := by push_cast; ring
      have hc2 : c ≤ ⌊tmax / (s : ℚ)⌋ := by
        rw [firstMultAbove] at h2
        have := lt_of_mul_lt_mul_left h2 (le_of_lt hs)
        omega
      refine ⟨(c - ⌊tmin / (s : ℚ)⌋ - 1).toNat, by omega, ?_⟩
      rw [firstMultAbove]
      have hcast : (((c - ⌊tmin / (s : ℚ)⌋ - 1).toNat : ℕ) : ℤ)
          = c - ⌊tmin / (s : ℚ)⌋ - 1 := Int.toNat_of_nonneg (by omega)
      rw [hcast]
      ring

/-- Witness for C8, extracting the concrete `min = 10.2, max = 30.7, step = 5`
instance from the theorem applied at those arguments. -/
theorem C8_witness :
    get_t_ticks (51 / 5) (307 / 10) 5 530 50 = ([15, 20, 25, 30], [417, 300, 183, 66]) ∧
    List.Chain' (fun a b => b < a) [(417 : ℤ), 300, 183, 66] ∧
    List.Chain' (fun a b => a < b) [(15 : ℤ), 20, 25, 30] :=
  (C8_colorbar_ticks 5 (by decide) (51 / 5) (307 / 10) 530 50 (by norm_num)).2.2.2

end PiThermalCam
